import Mathlib

/-!
Verification of the `envy` package (typed environment-variable configuration
helper, `src/envy.go`) against its natural-language specification.

The Go code is shallowly embedded:
* the process environment is a function `String → Option String`, matching
  `os.LookupEnv`'s `(value, present)` semantics;
* Go errors are modelled by their `Error()` message strings;
* a panic is modelled by returning the panic's message alongside the state
  reached so far (pointer writes performed before a panic persist in Go, so
  the state must survive the abort);
* the package-global queue `vars []func()` together with the memory cells
  the queued closures write through become an explicit `GState`
  (queue of bindings + store); destinations (`*T` pointers) are addresses
  `Nat` into a store of `GoVal`s;
* `strconv` parsers are implemented from the Go standard library's
  documented base-10 semantics (`ParseInt`/`ParseUint`/`Atoi`/`ParseBool`),
  including the error message layout `strconv.<Func>: parsing "<s>": <reason>`.
  `strconv.ParseFloat` is modelled for plain decimal literals only: the spec
  (§1) excludes per-type parse rules and no claim exercises float parsing;
* `reflect.TypeOf(zero).String()` in `failCast[T]` becomes an explicit
  type-name string supplied at each generic instantiation, with the Go
  renderings "string", "int", "int64", "uint", "uint64", "float64", "bool",
  "time.Duration";
* the width of Go's platform-dependent `uint` appears as an explicit
  bit-width parameter `uintBits` where `uint(i)` truncates (`castUint`);
  Go's `int` is taken to be 64-bit, as on all current mainstream platforms.
-/

/-- Alias kept so that `String`, `Int`, `Bool`, `Float` remain available
inside `namespace Envy` after same-named accessor functions are defined. -/
abbrev GoString := String

abbrev GoInt := Int

abbrev GoBool := Bool

abbrev GoFloat := Float

namespace Envy

/-- The process environment: `os.LookupEnv` semantics, where
`some ""` (present with empty value) is distinct from `none` (absent). -/
abbrev Env := GoString → Option GoString

/-- A Go `error` value, modelled by its `Error()` message. -/
abbrev GoErr := GoString

/-- A Go panic, modelled by the `Error()` message of the value passed to
`panic`. -/
abbrev GoPanic := GoString

/-- Numeric value of a decimal digit character, `none` for non-digits. -/
def digitVal (c : Char) : Option Nat :=
  if c.isDigit then some (c.toNat - '0'.toNat) else none

/-- Numeric value of a decimal digit list, `none` if any character is not a
digit or if the list is empty (helper for the `strconv` models). -/
def digitsVal (l : List Char) : Option Nat :=
  match l with
  | [] => none
  | _ =>
    l.foldl
      (fun acc c =>
        match acc, digitVal c with
        | some n, some d => some (n * 10 + d)
        | _, _ => none)
      (some 0)

/-- Layout of `strconv.NumError.Error()`:
`strconv.<Func>: parsing "<input>": <reason>`.  (The real code quotes with
`strconv.Quote`; for inputs without escape-worthy characters — all inputs in
this development — that is `"` + input + `"`.) -/
def numError (fn input reason : GoString) : GoErr :=
  "strconv." ++ fn ++ ": parsing \"" ++ input ++ "\": " ++ reason

def errSyntax : GoString := "invalid syntax"

def errRange : GoString := "value out of range"

/-- `strconv.ParseUint(s, 10, 64)`: no sign permitted, at least one decimal
digit, value below `2^64`.  Only the error matters to callers here
(`castUint64` discards the partial value on error). -/
def goParseUint (s : GoString) : Except GoErr Nat :=
  match digitsVal s.data with
  | none => .error (numError "ParseUint" s errSyntax)
  | some n =>
    if n < 2 ^ 64 then .ok n else .error (numError "ParseUint" s errRange)

/-- `strconv.ParseInt(s, 10, 64)` with the function name in the reported
error as a parameter, so that `strconv.Atoi` (same semantics on 64-bit
`int`, error func name "Atoi") shares the definition. -/
def goParseIntF (fn : GoString) (s : GoString) : Except GoErr GoInt :=
  let (neg, digits) :=
    match s.data with
    | '+' :: rest => (false, rest)
    | '-' :: rest => (true, rest)
    | l => (false, l)
  match digitsVal digits with
  | none => .error (numError fn s errSyntax)
  | some m =>
    if neg then
      if m ≤ 2 ^ 63 then .ok (-(m : GoInt))
      else .error (numError fn s errRange)
    else
      if m ≤ 2 ^ 63 - 1 then .ok (m : GoInt)
      else .error (numError fn s errRange)

/-- `strconv.ParseInt(s, 10, 64)`. -/
def goParseInt (s : GoString) : Except GoErr GoInt := goParseIntF "ParseInt" s

/-- `strconv.Atoi(s)` on a 64-bit platform. -/
def goAtoi (s : GoString) : Except GoErr GoInt := goParseIntF "Atoi" s

/-- `strconv.ParseBool`: accepts exactly the twelve documented literals. -/
def goParseBool (s : GoString) : Except GoErr GoBool :=
  if s = "1" ∨ s = "t" ∨ s = "T" ∨ s = "TRUE" ∨ s = "true" ∨ s = "True" then
    .ok true
  else if s = "0" ∨ s = "f" ∨ s = "F" ∨ s = "FALSE" ∨ s = "false" ∨ s = "False" then
    .ok false
  else .error (numError "ParseBool" s errSyntax)

/-- `strconv.ParseFloat(s, 64)`, modelled for plain decimal literals
(optional sign, digits, optional fractional digits).  The spec (§1)
delegates per-type parse rules to the standard library and no claim
depends on float parsing; inputs outside this fragment are rejected. -/
def goParseFloat (s : GoString) : Except GoErr GoFloat :=
  let (neg, body) :=
    match s.data with
    | '+' :: rest => (false, rest)
    | '-' :: rest => (true, rest)
    | l => (false, l)
  let render (ipart fpart : List Char) : Option GoFloat :=
    match digitsVal (ipart ++ fpart) with
    | none => none
    | some m =>
      let x := Float.ofScientific m true fpart.length
      some (if neg then -x else x)
  let parsed : Option GoFloat :=
    match body.splitOn '.' with
    | [ipart] => render ipart []
    | [ipart, fpart] =>
      if ipart.isEmpty ∧ fpart.isEmpty then none else render ipart fpart
    | _ => none
  match parsed with
  | some x => .ok x
  | none => .error (numError "ParseFloat" s errSyntax)

/-! ## The per-type converters (`caster[T]` instances, src/envy.go:278-325) -/

/-- `func castString(s string) (string, error)` — identity, never fails. -/
def castString (s : GoString) : Except GoErr GoString := .ok s

/-- `func castInt64`: `strconv.ParseInt(s, 10, 64)`, `0` on error. -/
def castInt64 (s : GoString) : Except GoErr GoInt :=
  match goParseInt s with
  | .error e => .error e
  | .ok i => .ok i

/-- `func castUint64`: `strconv.ParseUint(s, 10, 64)`, `0` on error. -/
def castUint64 (s : GoString) : Except GoErr Nat :=
  match goParseUint s with
  | .error e => .error e
  | .ok i => .ok i

/-- `func castUint`: delegates to `castUint64`, then converts `uint64 → uint`.
`uintBits` is the platform's `uint` width (32 or 64); the Go conversion
`uint(i)` truncates to that width. -/
def castUint (uintBits : Nat) (s : GoString) : Except GoErr Nat :=
  match castUint64 s with
  | .error e => .error e
  | .ok i => .ok (i % 2 ^ uintBits)

/-- `func castFloat64`: `strconv.ParseFloat(s, 64)`, `0` on error. -/
def castFloat64 (s : GoString) : Except GoErr GoFloat :=
  match goParseFloat s with
  | .error e => .error e
  | .ok f => .ok f

/-- `func castDuration`: delegates to `castInt64`, then reinterprets the
integer as `time.Duration` (an `int64` nanosecond count). -/
def castDuration (s : GoString) : Except GoErr GoInt :=
  match castInt64 s with
  | .error e => .error e
  | .ok i => .ok i

/-- `func failCast[T any](variable string, err error)` — the panic value
`fmt.Errorf("failed to parse %s as %s: %w", variable, reflect.TypeOf(zero).String(), err)`.
The `reflect` type name is the explicit `tyName` argument. -/
def failCast (tyName : GoString) (varName : GoString) (err : GoErr) : GoPanic :=
  "failed to parse " ++ varName ++ " as " ++ tyName ++ ": " ++ err

/-! ## The generic cast/assign primitive -/

/-- `func value[T any](name string, value T, convert caster[T]) T`
(src/envy.go:264-276): look the variable up, return the default when absent,
convert when present, panic (modelled as `.error`) when conversion fails. -/
def value {T : Type} (env : Env) (name : GoString) (defaultValue : T)
    (tyName : GoString) (convert : GoString → Except GoErr T) :
    Except GoPanic T :=
  match env name with
  | none => .ok defaultValue
  | some s =>
    match convert s with
    | .error err => .error (failCast tyName name err)
    | .ok v => .ok v

/-- A Go value of one of the supported scalar types, for the heterogeneous
store written through by the deferred bindings. -/
inductive GoVal where
  | str : GoString → GoVal
  | int : GoInt → GoVal
  | int64 : GoInt → GoVal
  | uint : Nat → GoVal
  | uint64 : Nat → GoVal
  | float64 : GoFloat → GoVal
  | bool : GoBool → GoVal
  | duration : GoInt → GoVal
deriving Repr

/-- The memory cells reachable from queued closures: address → value. -/
abbrev Store := Nat → GoVal

/-- Write through a destination pointer (`*addr = v`). -/
def updateStore (st : Store) (addr : Nat) (v : GoVal) : Store :=
  fun a => if a = addr then v else st a

/-- `func setVar[T any](addr *T, name string, defaultValue T, cast caster[T])`
(src/envy.go:140-154), instantiated at the `GoVal` universe of supported
types: look up, assign the default when absent, panic — leaving the store
untouched — when conversion fails, otherwise assign the converted value.
The `Option GoPanic` component is the panic that escapes (if any). -/
def setVar (env : Env) (addr : Nat) (name : GoString) (defaultValue : GoVal)
    (tyName : GoString) (cast : GoString → Except GoErr GoVal)
    (st : Store) : Store × Option GoPanic :=
  match env name with
  | none => (updateStore st addr defaultValue, none)
  | some v =>
    match cast v with
    | .error err => (st, some (failCast tyName name err))
    | .ok cv => (updateStore st addr cv, none)

/-! ## The deferred-binding queue (`var vars []func()`, `queueSetVar`, `Parse`) -/

/-- The data captured by one `queueSetVar` call: destination address,
variable name, default, `reflect` type name, converter.  Any registration
the package can ever perform is of this shape. -/
structure RegData where
  addr : Nat
  name : GoString
  defaultValue : GoVal
  tyName : GoString
  cast : GoString → Except GoErr GoVal

/-- A queued closure (`func()`).  Given the environment and the store it
writes through, it returns the updated store, the list of registrations it
performed (empty for every closure this package builds — the component
exists so that hypothetical re-entrant registrations during `Parse` are
expressible), and the panic that escaped, if any. -/
abbrev Binding := Env → Store → Store × List RegData × Option GoPanic

/-- The closure `func() { setVar(addr, name, defaultValue, cast) }` built by
`queueSetVar` (src/envy.go:156-160): runs `setVar`, registers nothing. -/
def mkBinding (addr : Nat) (name : GoString) (defaultValue : GoVal)
    (tyName : GoString) (cast : GoString → Except GoErr GoVal) : Binding :=
  fun env st =>
    match setVar env addr name defaultValue tyName cast st with
    | (st', p) => (st', [], p)

/-- The closure a `RegData` registration denotes. -/
def mkBindingOf (r : RegData) : Binding :=
  mkBinding r.addr r.name r.defaultValue r.tyName r.cast

/-- The package-global state: the queue `vars []func()` plus the memory the
queued closures write through. -/
structure GState where
  vars : List Binding
  store : Store

/-- `func queueSetVar[T any](addr *T, name string, defaultValue T, cast caster[T])`
(src/envy.go:156-160): `vars = append(vars, func() { setVar(...) })`.
Pure append; the store is untouched and the environment is not consulted. -/
def queueSetVar (addr : Nat) (name : GoString) (defaultValue : GoVal)
    (tyName : GoString) (cast : GoString → Except GoErr GoVal)
    (g : GState) : GState :=
  { g with vars := g.vars ++ [mkBinding addr name defaultValue tyName cast] }

/-- `for _, fn := range vars { fn() }` over a snapshot of the queue: Go's
`range` captures the slice value once, so closures appended while the loop
runs join the global queue but are not iterated by this loop.  A panic in a
closure aborts the iteration, keeping all state changes made so far. -/
def rangeRun (env : Env) : List Binding → GState → GState × Option GoPanic
  | [], g => (g, none)
  | b :: rest, g =>
    match b env g.store with
    | (st', regs, some p) =>
      ({ vars := g.vars ++ regs.map mkBindingOf, store := st' }, some p)
    | (st', regs, none) =>
      rangeRun env rest { vars := g.vars ++ regs.map mkBindingOf, store := st' }

/-- `func Parse()` (src/envy.go:170-174): run every queued closure, in
registration order, over the snapshot of the queue taken at entry. -/
def Parse (env : Env) (g : GState) : GState × Option GoPanic :=
  rangeRun env g.vars g

/-- Perform a list of registrations in order (a sequence of `XVar` calls,
expressed through `queueSetVar`). -/
def registerAll (rs : List RegData) (g : GState) : GState :=
  rs.foldl (fun g r => queueSetVar r.addr r.name r.defaultValue r.tyName r.cast g) g

/-- The reference semantics for a drained queue: run `setVar` for each
registration in list order, stopping at the first panic. -/
def runSetVars (env : Env) : List RegData → Store → Store × Option GoPanic
  | [], st => (st, none)
  | r :: rest, st =>
    match setVar env r.addr r.name r.defaultValue r.tyName r.cast st with
    | (st', some p) => (st', some p)
    | (st', none) => runSetVars env rest st'

/-! ## The typed wrapper families

In the source the wrappers pass a typed `caster[T]` to the generic
`queueSetVar[T]`/`value[T]`; here the deferred wrappers additionally inject
the typed value into `GoVal` (the store is heterogeneous) and each generic
instantiation fixes the `reflect.TypeOf` rendering of `T`. -/

/-- Inject a typed caster into the `GoVal` universe. -/
def liftCast {α : Type} (inj : α → GoVal) (c : GoString → Except GoErr α) :
    GoString → Except GoErr GoVal :=
  fun s =>
    match c s with
    | .error e => .error e
    | .ok v => .ok (inj v)

/-- `func StringVar(addr *string, name, defaultValue string)` (src/envy.go:31-33). -/
def StringVar (addr : Nat) (name defaultValue : GoString) : GState → GState :=
  queueSetVar addr name (GoVal.str defaultValue) "string" (liftCast GoVal.str castString)

/-- `func IntVar(addr *int, name string, defaultValue int)` (src/envy.go:46-48);
the caster is `strconv.Atoi`. -/
def IntVar (addr : Nat) (name : GoString) (defaultValue : GoInt) : GState → GState :=
  queueSetVar addr name (GoVal.int defaultValue) "int" (liftCast GoVal.int goAtoi)

/-- `func Int64Var(addr *int64, name string, defaultValue int64)` (src/envy.go:61-63). -/
def Int64Var (addr : Nat) (name : GoString) (defaultValue : GoInt) : GState → GState :=
  queueSetVar addr name (GoVal.int64 defaultValue) "int64" (liftCast GoVal.int64 castInt64)

/-- `func UintVar(addr *uint, name string, defaultValue uint)` (src/envy.go:76-78);
`uintBits` is the platform `uint` width. -/
def UintVar (uintBits : Nat) (addr : Nat) (name : GoString) (defaultValue : Nat) :
    GState → GState :=
  queueSetVar addr name (GoVal.uint defaultValue) "uint" (liftCast GoVal.uint (castUint uintBits))

/-- `func Uint64Var(addr *uint64, name string, defaultValue uint64)` (src/envy.go:91-93). -/
def Uint64Var (addr : Nat) (name : GoString) (defaultValue : Nat) : GState → GState :=
  queueSetVar addr name (GoVal.uint64 defaultValue) "uint64" (liftCast GoVal.uint64 castUint64)

/-- `func Float64Var(addr *float64, name string, defaultValue float64)` (src/envy.go:106-108). -/
def Float64Var (addr : Nat) (name : GoString) (defaultValue : GoFloat) : GState → GState :=
  queueSetVar addr name (GoVal.float64 defaultValue) "float64" (liftCast GoVal.float64 castFloat64)

/-- `func BoolVar(addr *bool, name string, defaultValue bool)` (src/envy.go:121-123);
the caster is `strconv.ParseBool`. -/
def BoolVar (addr : Nat) (name : GoString) (defaultValue : GoBool) : GState → GState :=
  queueSetVar addr name (GoVal.bool defaultValue) "bool" (liftCast GoVal.bool goParseBool)

/-- `func DurationVar(addr *time.Duration, name string, defaultValue time.Duration)`
(src/envy.go:136-138); a `time.Duration` is an `int64` nanosecond count. -/
def DurationVar (addr : Nat) (name : GoString) (defaultValue : GoInt) : GState → GState :=
  queueSetVar addr name (GoVal.duration defaultValue) "time.Duration"
    (liftCast GoVal.duration castDuration)

/-- `func String(name, defaultValue string) string` (src/envy.go:183-185). -/
def String (env : Env) (name defaultValue : GoString) : Except GoPanic GoString :=
  value env name defaultValue "string" castString

/-- `func Int(name string, defaultValue int) int` (src/envy.go:194-196). -/
def Int (env : Env) (name : GoString) (defaultValue : GoInt) : Except GoPanic GoInt :=
  value env name defaultValue "int" goAtoi

/-- `func Int64(name string, defaultValue int64) int64` (src/envy.go:205-207). -/
def Int64 (env : Env) (name : GoString) (defaultValue : GoInt) : Except GoPanic GoInt :=
  value env name defaultValue "int64" castInt64

/-- `func Uint(name string, defaultValue uint) uint` (src/envy.go:216-218). -/
def Uint (uintBits : Nat) (env : Env) (name : GoString) (defaultValue : Nat) :
    Except GoPanic Nat :=
  value env name defaultValue "uint" (castUint uintBits)

/-- `func Uint64(name string, defaultValue uint64) uint64` (src/envy.go:227-229). -/
def Uint64 (env : Env) (name : GoString) (defaultValue : Nat) : Except GoPanic Nat :=
  value env name defaultValue "uint64" castUint64

/-- `func Float64(name string, defaultValue float64) float64` (src/envy.go:238-240). -/
def Float64 (env : Env) (name : GoString) (defaultValue : GoFloat) : Except GoPanic GoFloat :=
  value env name defaultValue "float64" castFloat64

/-- `func Bool(name string, defaultValue bool) bool` (src/envy.go:249-251). -/
def Bool (env : Env) (name : GoString) (defaultValue : GoBool) : Except GoPanic GoBool :=
  value env name defaultValue "bool" goParseBool

/-- `func Duration(name string, defaultValue time.Duration) time.Duration`
(src/envy.go:260-262). -/
def Duration (env : Env) (name : GoString) (defaultValue : GoInt) : Except GoPanic GoInt :=
  value env name defaultValue "time.Duration" castDuration

/-! ## Concrete scenario data (used by witnesses and scenario conjuncts) -/

/-- Registration of int destination 0 bound to "FOO" with default 1
(the claim scenarios' binder A). -/
def regFOO : RegData := ⟨0, "FOO", GoVal.int 1, "int", liftCast GoVal.int goAtoi⟩

/-- Registration of int destination 1 bound to "BAR" with default 2
(the claim scenarios' binder B). -/
def regBAR : RegData := ⟨1, "BAR", GoVal.int 2, "int", liftCast GoVal.int goAtoi⟩

/-- Environment with FOO="7" and BAR="abc" (failure-abort scenario). -/
def envFB : Env :=
  fun n => if n = "FOO" then some "7" else if n = "BAR" then some "abc" else none

/-- Initial store: every destination holds `GoVal.int 0`. -/
def st0 : Store := fun _ => GoVal.int 0

/-- The empty environment. -/
def envNone : Env := fun _ => none

/-- A hypothetical re-entrant closure: when run it writes `GoVal.int 5`
through destination 0 and performs the registration `regBAR` (as a binding
that called `IntVar` while `Parse` iterates would). -/
def selfRegBinding : Binding :=
  fun _ st => (updateStore st 0 (GoVal.int 5), [regBAR], none)

/-! ## Shared lemmas about the embedding -/

/-- `value` on an absent variable returns the default. -/
theorem value_unset {T : Type} (env : Env) (name : GoString) (d : T) (ty : GoString)
    (cast : GoString → Except GoErr T) (h : env name = none) :
    value env name d ty cast = .ok d := by
  simp [value, h]

/-- `setVar` on an absent variable assigns the default and does not panic. -/
theorem setVar_unset (env : Env) (addr : Nat) (name : GoString) (dG : GoVal)
    (ty : GoString) (cast : GoString → Except GoErr GoVal) (st : Store)
    (h : env name = none) :
    setVar env addr name dG ty cast st = (updateStore st addr dG, none) := by
  simp [setVar, h]

/-- `setVar` on a present variable whose conversion fails leaves the store
untouched and panics with the `failCast` message. -/
theorem setVar_cast_error (env : Env) (addr : Nat) (name : GoString) (dG : GoVal)
    (ty : GoString) (cast : GoString → Except GoErr GoVal) (st : Store)
    (s : GoString) (e : GoErr) (hs : env name = some s) (hc : cast s = .error e) :
    setVar env addr name dG ty cast st = (st, some (failCast ty name e)) := by
  simp [setVar, hs, hc]

/-- `setVar` on a present variable whose conversion succeeds assigns the
converted value. -/
theorem setVar_cast_ok (env : Env) (addr : Nat) (name : GoString) (dG : GoVal)
    (ty : GoString) (cast : GoString → Except GoErr GoVal) (st : Store)
    (s : GoString) (v : GoVal) (hs : env name = some s) (hc : cast s = .ok v) :
    setVar env addr name dG ty cast st = (updateStore st addr v, none) := by
  simp [setVar, hs, hc]

/-- Registering is queue append: the queue gains exactly the corresponding
closures, in order, and the store is untouched. -/
theorem registerAll_eq (rs : List RegData) (g : GState) :
    registerAll rs g = ⟨g.vars ++ rs.map mkBindingOf, g.store⟩ := by
  induction rs generalizing g with
  | nil => cases g; simp [registerAll]
  | cons r rest ih =>
    show registerAll rest (queueSetVar r.addr r.name r.defaultValue r.tyName r.cast g) = _
    rw [ih]
    simp [queueSetVar, mkBindingOf]

/-- Draining a queue of package-built closures is exactly the in-order
execution of the corresponding `setVar` calls; the queue is unchanged. -/
theorem rangeRun_bindings (env : Env) (rs : List RegData) : ∀ g : GState,
    rangeRun env (rs.map mkBindingOf) g
      = (⟨g.vars, (runSetVars env rs g.store).1⟩, (runSetVars env rs g.store).2) := by
  induction rs with
  | nil => intro g; cases g; simp [rangeRun, runSetVars]
  | cons r rest ih =>
    intro g
    rcases hsv : setVar env r.addr r.name r.defaultValue r.tyName r.cast g.store with ⟨st', p⟩
    cases p with
    | none => simp [rangeRun, mkBindingOf, mkBinding, hsv, runSetVars, ih]
    | some p => simp [rangeRun, mkBindingOf, mkBinding, hsv, runSetVars]

/-- `Parse` after a sequence of registrations from an empty queue: the store
evolves exactly as the in-order `setVar` execution dictates, any panic of
that execution escapes, and the queue still holds every registered closure. -/
theorem Parse_registerAll (env : Env) (rs : List RegData) (st : Store) :
    Parse env (registerAll rs ⟨[], st⟩)
      = (⟨rs.map mkBindingOf, (runSetVars env rs st).1⟩, (runSetVars env rs st).2) := by
  rw [registerAll_eq]
  show rangeRun env (([] : List Binding) ++ rs.map mkBindingOf) _ = _
  rw [List.nil_append]
  exact rangeRun_bindings env rs ⟨rs.map mkBindingOf, st⟩

/-- A panic inside the first block of registrations cuts the run short. -/
theorem runSetVars_append_panic (env : Env) (rs1 rs2 : List RegData) (st st1 : Store)
    (p : GoPanic) (h : runSetVars env rs1 st = (st1, some p)) :
    runSetVars env (rs1 ++ rs2) st = (st1, some p) := by
  induction rs1 generalizing st with
  | nil => simp [runSetVars] at h
  | cons r rest ih =>
    rcases hsv : setVar env r.addr r.name r.defaultValue r.tyName r.cast st with ⟨st', q⟩
    cases q with
    | none =>
      rw [runSetVars, hsv] at h
      simpa [runSetVars, hsv] using ih st' h
    | some q =>
      rw [runSetVars, hsv] at h
      simp only [Prod.mk.injEq, Option.some.injEq] at h
      simp [runSetVars, hsv, h.1, h.2]

/-- A successful first block of registrations hands its store to the rest. -/
theorem runSetVars_append_ok (env : Env) (rs1 rs2 : List RegData) (st st1 : Store)
    (h : runSetVars env rs1 st = (st1, none)) :
    runSetVars env (rs1 ++ rs2) st = runSetVars env rs2 st1 := by
  induction rs1 generalizing st with
  | nil =>
    simp only [runSetVars, Prod.mk.injEq] at h
    simp [h.1]
  | cons r rest ih =>
    rcases hsv : setVar env r.addr r.name r.defaultValue r.tyName r.cast st with ⟨st', q⟩
    cases q with
    | none =>
      rw [runSetVars, hsv] at h
      simpa [runSetVars, hsv] using ih st' h
    | some q => rw [runSetVars, hsv] at h; simp at h

/-- `Parse` over a freshly registered single binding performs that binding's
`setVar` and keeps the closure queued. -/
theorem Parse_queueSetVar_single (env : Env) (addr : Nat) (name : GoString)
    (dG : GoVal) (ty : GoString) (cast : GoString → Except GoErr GoVal) (st : Store) :
    Parse env (queueSetVar addr name dG ty cast ⟨[], st⟩)
      = (⟨[mkBinding addr name dG ty cast], (setVar env addr name dG ty cast st).1⟩,
         (setVar env addr name dG ty cast st).2) := by
  rcases hsv : setVar env addr name dG ty cast st with ⟨st', p⟩
  cases p <;> simp [Parse, queueSetVar, rangeRun, mkBinding, hsv]

/-- The store a run of `setVar`s produces is the store some prefix of the run
produces (everything after the first panic is dead). -/
theorem runSetVars_take (env : Env) (rs : List RegData) : ∀ st : Store,
    ∃ k ≤ rs.length, (runSetVars env rs st).1 = (runSetVars env (rs.take k) st).1 := by
  induction rs with
  | nil => intro st; exact ⟨0, Nat.le_refl 0, rfl⟩
  | cons r rest ih =>
    intro st
    rcases hsv : setVar env r.addr r.name r.defaultValue r.tyName r.cast st with ⟨st', q⟩
    cases q with
    | none =>
      rcases ih st' with ⟨k, hk, hst⟩
      exact ⟨k + 1, Nat.succ_le_succ hk, by simp [runSetVars, hsv, hst]⟩
    | some q => exact ⟨1, Nat.succ_le_succ (Nat.zero_le _), by simp [runSetVars, hsv]⟩

/-- Iterating a snapshot only ever appends to the queue, for arbitrary
closures (`append` is the only queue operation `rangeRun` performs). -/
theorem rangeRun_vars_prefix (env : Env) (q : List Binding) : ∀ g : GState,
    g.vars <+: (rangeRun env q g).1.vars := by
  induction q with
  | nil => intro g; exact List.prefix_refl _
  | cons b rest ih =>
    intro g
    rcases hb : b env g.store with ⟨st', regs, p⟩
    cases p with
    | none =>
      have h1 : g.vars <+: g.vars ++ regs.map mkBindingOf := ⟨regs.map mkBindingOf, rfl⟩
      refine h1.trans ?_
      simpa [rangeRun, hb] using ih ⟨g.vars ++ regs.map mkBindingOf, st'⟩
    | some p => exact ⟨regs.map mkBindingOf, by simp [rangeRun, hb]⟩

/-- What a snapshot's iteration does to the store — and whether it panics —
depends only on the snapshot and the store, never on the live queue the
iteration is appending to. -/
theorem rangeRun_store_indep (env : Env) (q : List Binding) : ∀ (st : Store)
    (qv qv' : List Binding),
    (rangeRun env q ⟨qv, st⟩).1.store = (rangeRun env q ⟨qv', st⟩).1.store
      ∧ (rangeRun env q ⟨qv, st⟩).2 = (rangeRun env q ⟨qv', st⟩).2 := by
  induction q with
  | nil => intro st qv qv'; exact ⟨rfl, rfl⟩
  | cons b rest ih =>
    intro st qv qv'
    rcases hb : b env st with ⟨st', regs, p⟩
    cases p with
    | none =>
      simpa [rangeRun, hb] using
        ih st' (qv ++ regs.map mkBindingOf) (qv' ++ regs.map mkBindingOf)
    | some p => simp [rangeRun, hb]

/-! ## The claims -/

/-- C1: for every supported type, variable name and default value, if the
environment variable is absent then the immediate accessor returns the
supplied default unchanged (generic `value` and all eight typed accessors),
and the corresponding deferred binding, when triggered by `Parse`, assigns
the supplied default unchanged to its destination (generic `setVar` and all
eight typed binders). -/
theorem C1_unset_yields_default (env : Env) (name : GoString) (h : env name = none) :
    (∀ (T : Type) (d : T) (ty : GoString) (cast : GoString → Except GoErr T),
        value env name d ty cast = .ok d)
    ∧ (∀ (addr : Nat) (dG : GoVal) (ty : GoString)
        (cast : GoString → Except GoErr GoVal) (st : Store),
        setVar env addr name dG ty cast st = (updateStore st addr dG, none))
    ∧ (∀ d, String env name d = .ok d)
    ∧ (∀ d, Int env name d = .ok d)
    ∧ (∀ d, Int64 env name d = .ok d)
    ∧ (∀ bits d, Uint bits env name d = .ok d)
    ∧ (∀ d, Uint64 env name d = .ok d)
    ∧ (∀ d, Float64 env name d = .ok d)
    ∧ (∀ d, Bool env name d = .ok d)
    ∧ (∀ d, Duration env name d = .ok d)
    ∧ (∀ addr d st, Parse env (StringVar addr name d ⟨[], st⟩)
        = (⟨(StringVar addr name d ⟨[], st⟩).vars, updateStore st addr (GoVal.str d)⟩, none))
    ∧ (∀ addr d st, Parse env (IntVar addr name d ⟨[], st⟩)
        = (⟨(IntVar addr name d ⟨[], st⟩).vars, updateStore st addr (GoVal.int d)⟩, none))
    ∧ (∀ addr d st, Parse env (Int64Var addr name d ⟨[], st⟩)
        = (⟨(Int64Var addr name d ⟨[], st⟩).vars, updateStore st addr (GoVal.int64 d)⟩, none))
    ∧ (∀ bits addr d st, Parse env (UintVar bits addr name d ⟨[], st⟩)
        = (⟨(UintVar bits addr name d ⟨[], st⟩).vars, updateStore st addr (GoVal.uint d)⟩, none))
    ∧ (∀ addr d st, Parse env (Uint64Var addr name d ⟨[], st⟩)
        = (⟨(Uint64Var addr name d ⟨[], st⟩).vars, updateStore st addr (GoVal.uint64 d)⟩, none))
    ∧ (∀ addr d st, Parse env (Float64Var addr name d ⟨[], st⟩)
        = (⟨(Float64Var addr name d ⟨[], st⟩).vars, updateStore st addr (GoVal.float64 d)⟩, none))
    ∧ (∀ addr d st, Parse env (BoolVar addr name d ⟨[], st⟩)
        = (⟨(BoolVar addr name d ⟨[], st⟩).vars, updateStore st addr (GoVal.bool d)⟩, none))
    ∧ (∀ addr d st, Parse env (DurationVar addr name d ⟨[], st⟩)
        = (⟨(DurationVar addr name d ⟨[], st⟩).vars, updateStore st addr (GoVal.duration d)⟩, none)) := by
  have hq : ∀ (addr : Nat) (dG : GoVal) (ty : GoString)
      (cast : GoString → Except GoErr GoVal) (st : Store),
      Parse env (queueSetVar addr name dG ty cast ⟨[], st⟩)
        = (⟨[mkBinding addr name dG ty cast], updateStore st addr dG⟩, none) := by
    intro addr dG ty cast st
    rw [Parse_queueSetVar_single, setVar_unset env addr name dG ty cast st h]
  refine ⟨fun T d ty cast => value_unset env name d ty cast h,
    fun addr dG ty cast st => setVar_unset env addr name dG ty cast st h,
    fun d => value_unset env name d _ _ h,
    fun d => value_unset env name d _ _ h,
    fun d => value_unset env name d _ _ h,
    fun bits d => value_unset env name d _ _ h,
    fun d => value_unset env name d _ _ h,
    fun d => value_unset env name d _ _ h,
    fun d => value_unset env name d _ _ h,
    fun d => value_unset env name d _ _ h,
    fun addr d st => by simpa [StringVar, queueSetVar] using hq addr (GoVal.str d) _ _ st,
    fun addr d st => by simpa [IntVar, queueSetVar] using hq addr (GoVal.int d) _ _ st,
    fun addr d st => by simpa [Int64Var, queueSetVar] using hq addr (GoVal.int64 d) _ _ st,
    fun bits addr d st => by simpa [UintVar, queueSetVar] using hq addr (GoVal.uint d) _ _ st,
    fun addr d st => by simpa [Uint64Var, queueSetVar] using hq addr (GoVal.uint64 d) _ _ st,
    fun addr d st => by simpa [Float64Var, queueSetVar] using hq addr (GoVal.float64 d) _ _ st,
    fun addr d st => by simpa [BoolVar, queueSetVar] using hq addr (GoVal.bool d) _ _ st,
    fun addr d st => by simpa [DurationVar, queueSetVar] using hq addr (GoVal.duration d) _ _ st⟩

/-- C1 witness: with an empty environment, `Int` returns the default `7`,
and `Parse` after an `IntVar` registration writes the default `7`. -/
theorem C1_witness :
    ((fun _ => none : Env) "FOO" = none)
    ∧ Int (fun _ => none) "FOO" 7 = .ok 7
    ∧ Parse (fun _ => none) (IntVar 0 "FOO" 7 ⟨[], fun _ => GoVal.int 0⟩)
        = (⟨(IntVar 0 "FOO" 7 ⟨[], fun _ => GoVal.int 0⟩).vars,
            updateStore (fun _ => GoVal.int 0) 0 (GoVal.int 7)⟩, none) :=
  ⟨rfl,
   (C1_unset_yields_default (fun _ => none) "FOO" rfl).2.2.2.1 7,
   (C1_unset_yields_default (fun _ => none) "FOO" rfl).2.2.2.2.2.2.2.2.2.2.2.1
     0 7 (fun _ => GoVal.int 0)⟩

/-- C5: every deferred binder returns immediately having only appended one
closure to the queue — the store (hence every registered-but-untriggered
destination) is untouched, and so is it across any sequence of
registrations.  (That no binder reads the environment is structural: the
registration functions do not take the environment at all — only the queued
closure, run by `Parse`, does.) -/
theorem C5_binders_only_append :
    (∀ addr (name d : GoString) (g : GState), (StringVar addr name d g).store = g.store
      ∧ (StringVar addr name d g).vars
          = g.vars ++ [mkBinding addr name (GoVal.str d) "string" (liftCast GoVal.str castString)])
    ∧ (∀ addr name (d : GoInt) (g : GState), (IntVar addr name d g).store = g.store
      ∧ (IntVar addr name d g).vars
          = g.vars ++ [mkBinding addr name (GoVal.int d) "int" (liftCast GoVal.int goAtoi)])
    ∧ (∀ addr name (d : GoInt) (g : GState), (Int64Var addr name d g).store = g.store
      ∧ (Int64Var addr name d g).vars
          = g.vars ++ [mkBinding addr name (GoVal.int64 d) "int64" (liftCast GoVal.int64 castInt64)])
    ∧ (∀ bits addr name (d : Nat) (g : GState), (UintVar bits addr name d g).store = g.store
      ∧ (UintVar bits addr name d g).vars
          = g.vars ++ [mkBinding addr name (GoVal.uint d) "uint" (liftCast GoVal.uint (castUint bits))])
    ∧ (∀ addr name (d : Nat) (g : GState), (Uint64Var addr name d g).store = g.store
      ∧ (Uint64Var addr name d g).vars
          = g.vars ++ [mkBinding addr name (GoVal.uint64 d) "uint64" (liftCast GoVal.uint64 castUint64)])
    ∧ (∀ addr name (d : GoFloat) (g : GState), (Float64Var addr name d g).store = g.store
      ∧ (Float64Var addr name d g).vars
          = g.vars ++ [mkBinding addr name (GoVal.float64 d) "float64" (liftCast GoVal.float64 castFloat64)])
    ∧ (∀ addr name (d : GoBool) (g : GState), (BoolVar addr name d g).store = g.store
      ∧ (BoolVar addr name d g).vars
          = g.vars ++ [mkBinding addr name (GoVal.bool d) "bool" (liftCast GoVal.bool goParseBool)])
    ∧ (∀ addr name (d : GoInt) (g : GState), (DurationVar addr name d g).store = g.store
      ∧ (DurationVar addr name d g).vars
          = g.vars ++ [mkBinding addr name (GoVal.duration d) "time.Duration" (liftCast GoVal.duration castDuration)])
    ∧ (∀ (rs : List RegData) (g : GState), (registerAll rs g).store = g.store) :=
  ⟨fun _ _ _ _ => ⟨rfl, rfl⟩, fun _ _ _ _ => ⟨rfl, rfl⟩, fun _ _ _ _ => ⟨rfl, rfl⟩,
   fun _ _ _ _ _ => ⟨rfl, rfl⟩, fun _ _ _ _ => ⟨rfl, rfl⟩, fun _ _ _ _ => ⟨rfl, rfl⟩,
   fun _ _ _ _ => ⟨rfl, rfl⟩, fun _ _ _ _ => ⟨rfl, rfl⟩,
   fun rs g => by rw [registerAll_eq]⟩

/-- C6: a textual variable present with the empty string resolves to the
empty string, not the default — for the `String` accessor, for the `setVar`
a `StringVar` registration queues, and for `Parse` over that registration. -/
theorem C6_empty_string_overrides_default (env : Env) (name : GoString)
    (h : env name = some "") :
    (∀ d, String env name d = .ok "")
    ∧ (∀ addr (d : GoString) (st : Store),
        setVar env addr name (GoVal.str d) "string" (liftCast GoVal.str castString) st
          = (updateStore st addr (GoVal.str ""), none))
    ∧ (∀ addr d st, Parse env (StringVar addr name d ⟨[], st⟩)
        = (⟨(StringVar addr name d ⟨[], st⟩).vars, updateStore st addr (GoVal.str "")⟩, none)) := by
  have hsv : ∀ addr (d : GoString) (st : Store),
      setVar env addr name (GoVal.str d) "string" (liftCast GoVal.str castString) st
        = (updateStore st addr (GoVal.str ""), none) :=
    fun addr d st => setVar_cast_ok env addr name (GoVal.str d) "string" _ st "" (GoVal.str "") h rfl
  refine ⟨fun d => ?_, hsv, fun addr d st => ?_⟩
  · show value env name d "string" castString = _
    simp [value, h, castString]
  · rw [show StringVar addr name d = queueSetVar addr name (GoVal.str d) "string"
        (liftCast GoVal.str castString) from rfl,
      Parse_queueSetVar_single, hsv addr d st]
    simp [queueSetVar]

/-- C6 witness: with the variable "E" set to the empty string, `String`
returns `""` (not the default) and `Parse` after `StringVar` writes `""`. -/
theorem C6_witness :
    ((fun n => if n = "E" then some "" else none : Env) "E" = some "")
    ∧ String (fun n => if n = "E" then some "" else none) "E" "dflt" = .ok ""
    ∧ Parse (fun n => if n = "E" then some "" else none)
        (StringVar 0 "E" "dflt" ⟨[], fun _ => GoVal.str "x"⟩)
      = (⟨(StringVar 0 "E" "dflt" ⟨[], fun _ => GoVal.str "x"⟩).vars,
          updateStore (fun _ => GoVal.str "x") 0 (GoVal.str "")⟩, none) :=
  ⟨rfl,
   (C6_empty_string_overrides_default (fun n => if n = "E" then some "" else none) "E" rfl).1 "dflt",
   (C6_empty_string_overrides_default (fun n => if n = "E" then some "" else none) "E" rfl).2.2
     0 "dflt" (fun _ => GoVal.str "x")⟩

/-- C2: `Parse` invokes all pending bindings synchronously and in exactly
registration order — draining the queue built by any sequence of
registrations behaves as the in-order `setVar` execution — and the concrete
scenario: registering destination 0 (var "FOO", default 1) then destination
1 (var "BAR", default 2) as int binders with FOO=10 set and BAR unset
yields A=10 and B=2. -/
theorem C2_parse_in_registration_order :
    (∀ (env : Env) (rs : List RegData) (st : Store),
        Parse env (registerAll rs ⟨[], st⟩)
          = (⟨rs.map mkBindingOf, (runSetVars env rs st).1⟩, (runSetVars env rs st).2))
    ∧ ((Parse (fun n => if n = "FOO" then some "10" else none)
          (IntVar 1 "BAR" 2 (IntVar 0 "FOO" 1 ⟨[], fun _ => GoVal.int 0⟩))).1.store 0
        = GoVal.int 10)
    ∧ ((Parse (fun n => if n = "FOO" then some "10" else none)
          (IntVar 1 "BAR" 2 (IntVar 0 "FOO" 1 ⟨[], fun _ => GoVal.int 0⟩))).1.store 1
        = GoVal.int 2)
    ∧ (Parse (fun n => if n = "FOO" then some "10" else none)
          (IntVar 1 "BAR" 2 (IntVar 0 "FOO" 1 ⟨[], fun _ => GoVal.int 0⟩))).2 = none :=
  ⟨fun env rs st => Parse_registerAll env rs st, rfl, rfl, rfl⟩

/-- C4: if the k-th binding's conversion fails during `Parse`, the panic
propagates out immediately: the store is exactly the one the successful
prefix produced (earlier writes kept, no rollback, bindings after k
unexecuted and their destinations unmodified) and the whole queue stays
registered.  Concretely: FOO="7" for int destination 0, BAR="abc" for int
destination 1 — destination 0 is written with 7, destination 1 keeps its
initial value, and the panic names "BAR" and type int. -/
theorem C4_panic_propagates_without_rollback :
    (∀ (env : Env) (rs1 : List RegData) (r : RegData) (rs2 : List RegData)
        (st st1 : Store) (p : GoPanic),
        runSetVars env rs1 st = (st1, none) →
        setVar env r.addr r.name r.defaultValue r.tyName r.cast st1 = (st1, some p) →
        Parse env (registerAll (rs1 ++ r :: rs2) ⟨[], st⟩)
          = (⟨(rs1 ++ r :: rs2).map mkBindingOf, st1⟩, some p))
    ∧ ((Parse (fun n => if n = "FOO" then some "7" else if n = "BAR" then some "abc" else none)
          (IntVar 1 "BAR" 2 (IntVar 0 "FOO" 1 ⟨[], fun _ => GoVal.int 0⟩))).1.store 0
        = GoVal.int 7)
    ∧ ((Parse (fun n => if n = "FOO" then some "7" else if n = "BAR" then some "abc" else none)
          (IntVar 1 "BAR" 2 (IntVar 0 "FOO" 1 ⟨[], fun _ => GoVal.int 0⟩))).1.store 1
        = GoVal.int 0)
    ∧ (Parse (fun n => if n = "FOO" then some "7" else if n = "BAR" then some "abc" else none)
          (IntVar 1 "BAR" 2 (IntVar 0 "FOO" 1 ⟨[], fun _ => GoVal.int 0⟩))).2
        = some "failed to parse BAR as int: strconv.Atoi: parsing \"abc\": invalid syntax" := by
  refine ⟨fun env rs1 r rs2 st st1 p h1 h2 => ?_, rfl, rfl, rfl⟩
  rw [Parse_registerAll]
  have hrun : runSetVars env (rs1 ++ r :: rs2) st = (st1, some p) := by
    rw [runSetVars_append_ok env rs1 (r :: rs2) st st1 h1]
    simp [runSetVars, h2]
  rw [hrun]

/-- C4 witness: the general statement instantiated at the FOO/BAR scenario
(FOO="7" parses, BAR="abc" fails for the int binder). -/
theorem C4_witness :
    (runSetVars envFB [regFOO] st0 = (updateStore st0 0 (GoVal.int 7), none))
    ∧ (setVar envFB regBAR.addr regBAR.name regBAR.defaultValue regBAR.tyName regBAR.cast
        (updateStore st0 0 (GoVal.int 7))
      = (updateStore st0 0 (GoVal.int 7),
         some "failed to parse BAR as int: strconv.Atoi: parsing \"abc\": invalid syntax"))
    ∧ Parse envFB (registerAll ([regFOO] ++ regBAR :: []) ⟨[], st0⟩)
      = (⟨([regFOO] ++ regBAR :: []).map mkBindingOf, updateStore st0 0 (GoVal.int 7)⟩,
         some "failed to parse BAR as int: strconv.Atoi: parsing \"abc\": invalid syntax") :=
  ⟨rfl, rfl,
   C4_panic_propagates_without_rollback.1 envFB [regFOO] regBAR [] st0
     (updateStore st0 0 (GoVal.int 7))
     "failed to parse BAR as int: strconv.Atoi: parsing \"abc\": invalid syntax"
     rfl rfl⟩

/-- C7: per binding and `Parse` invocation, the destination is written at
most once, and only after the lookup-or-default resolution (the same
resolution `value` performs) has succeeded; a failed conversion panics with
the store untouched.  At the queue level, the store `Parse` produces is the
store produced by executing a prefix of the registrations in order — a
binding runs at most once per invocation. -/
theorem C7_destination_written_at_most_once :
    (∀ (env : Env) (addr : Nat) (name : GoString) (dG : GoVal) (ty : GoString)
        (cast : GoString → Except GoErr GoVal) (st : Store),
        (∃ p, value env name dG ty cast = .error p
            ∧ setVar env addr name dG ty cast st = (st, some p))
        ∨ (∃ v, value env name dG ty cast = .ok v
            ∧ setVar env addr name dG ty cast st = (updateStore st addr v, none)))
    ∧ (∀ (env : Env) (rs : List RegData) (st : Store),
        ∃ k ≤ rs.length,
          (Parse env (registerAll rs ⟨[], st⟩)).1.store
            = (runSetVars env (rs.take k) st).1) := by
  constructor
  · intro env addr name dG ty cast st
    cases henv : env name with
    | none =>
      exact .inr ⟨dG, value_unset env name dG ty cast henv,
        setVar_unset env addr name dG ty cast st henv⟩
    | some s =>
      cases hc : cast s with
      | error e =>
        exact .inl ⟨failCast ty name e, by simp [value, henv, hc],
          setVar_cast_error env addr name dG ty cast st s e henv hc⟩
      | ok v =>
        exact .inr ⟨v, by simp [value, henv, hc],
          setVar_cast_ok env addr name dG ty cast st s v henv hc⟩
  · intro env rs st
    rw [Parse_registerAll]
    exact runSetVars_take env rs st

/-- C3: whenever the variable is present and the type's converter rejects
its value, the operation panics — `value` returns no value and `setVar`
performs no write — and the panic message is exactly
`failed to parse <variable name> as <target type name>: <underlying error>`,
with the `reflect` rendering of each target type ("int", "int64", "uint",
"uint64", "float64", "bool", "time.Duration") for the typed accessors. -/
theorem C3_failure_panics_with_named_message :
    (∀ (T : Type) (env : Env) (name : GoString) (d : T) (ty : GoString)
        (cast : GoString → Except GoErr T) (s : GoString) (e : GoErr),
        env name = some s → cast s = .error e →
        value env name d ty cast
          = .error ("failed to parse " ++ name ++ " as " ++ ty ++ ": " ++ e))
    ∧ (∀ (env : Env) (addr : Nat) (name : GoString) (dG : GoVal) (ty : GoString)
        (cast : GoString → Except GoErr GoVal) (st : Store) (s : GoString) (e : GoErr),
        env name = some s → cast s = .error e →
        setVar env addr name dG ty cast st
          = (st, some ("failed to parse " ++ name ++ " as " ++ ty ++ ": " ++ e)))
    ∧ (∀ (env : Env) name (d : GoInt) s e, env name = some s → goAtoi s = .error e →
        Int env name d = .error (failCast "int" name e))
    ∧ (∀ (env : Env) name (d : GoInt) s e, env name = some s → castInt64 s = .error e →
        Int64 env name d = .error (failCast "int64" name e))
    ∧ (∀ bits (env : Env) name (d : Nat) s e, env name = some s → castUint bits s = .error e →
        Uint bits env name d = .error (failCast "uint" name e))
    ∧ (∀ (env : Env) name (d : Nat) s e, env name = some s → castUint64 s = .error e →
        Uint64 env name d = .error (failCast "uint64" name e))
    ∧ (∀ (env : Env) name (d : GoFloat) s e, env name = some s → castFloat64 s = .error e →
        Float64 env name d = .error (failCast "float64" name e))
    ∧ (∀ (env : Env) name (d : GoBool) s e, env name = some s → goParseBool s = .error e →
        Bool env name d = .error (failCast "bool" name e))
    ∧ (∀ (env : Env) name (d : GoInt) s e, env name = some s → castDuration s = .error e →
        Duration env name d = .error (failCast "time.Duration" name e)) := by
  have hv : ∀ (T : Type) (env : Env) (name : GoString) (d : T) (ty : GoString)
      (cast : GoString → Except GoErr T) (s : GoString) (e : GoErr),
      env name = some s → cast s = .error e →
      value env name d ty cast
        = .error ("failed to parse " ++ name ++ " as " ++ ty ++ ": " ++ e) := by
    intro T env name d ty cast s e hs hc
    simp [value, hs, hc, failCast]
  refine ⟨hv, ?_,
    fun env name d s e hs hc => hv _ env name d "int" goAtoi s e hs hc,
    fun env name d s e hs hc => hv _ env name d "int64" castInt64 s e hs hc,
    fun bits env name d s e hs hc => hv _ env name d "uint" (castUint bits) s e hs hc,
    fun env name d s e hs hc => hv _ env name d "uint64" castUint64 s e hs hc,
    fun env name d s e hs hc => hv _ env name d "float64" castFloat64 s e hs hc,
    fun env name d s e hs hc => hv _ env name d "bool" goParseBool s e hs hc,
    fun env name d s e hs hc => hv _ env name d "time.Duration" castDuration s e hs hc⟩
  intro env addr name dG ty cast st s e hs hc
  simp [setVar, hs, hc, failCast]

/-- C3 witness: "B" set to "abc", which the int64 converter rejects — the
accessor panics with the message naming "B", "int64" and the root error. -/
theorem C3_witness :
    ((fun n => if n = "B" then some "abc" else none : Env) "B" = some "abc")
    ∧ castInt64 "abc" = .error "strconv.ParseInt: parsing \"abc\": invalid syntax"
    ∧ Int64 (fun n => if n = "B" then some "abc" else none) "B" 0
        = .error "failed to parse B as int64: strconv.ParseInt: parsing \"abc\": invalid syntax" :=
  ⟨rfl, rfl,
   C3_failure_panics_with_named_message.2.2.2.1
     (fun n => if n = "B" then some "abc" else none) "B" 0 "abc"
     "strconv.ParseInt: parsing \"abc\": invalid syntax" rfl rfl⟩

/-- C8: the duration converter is exactly the signed 64-bit base-10 integer
parse (the value is the nanosecond count reinterpreted, the failures are the
integer parse's failures): "5000000000" resolves to 5 seconds expressed in
nanoseconds and "5s" panics — no human-readable duration grammar. -/
theorem C8_duration_parses_integer_nanoseconds :
    (∀ s, castDuration s = goParseInt s)
    ∧ (∀ s e, castDuration s = .error e ↔ castInt64 s = .error e)
    ∧ Duration (fun n => if n = "D" then some "5000000000" else none) "D" 0 = .ok 5000000000
    ∧ (5000000000 : GoInt) = 5 * 1000000000
    ∧ Duration (fun n => if n = "D" then some "5s" else none) "D" 0
        = .error "failed to parse D as time.Duration: strconv.ParseInt: parsing \"5s\": invalid syntax" := by
  refine ⟨fun s => ?_, fun s e => ?_, rfl, by norm_num, rfl⟩
  · cases h : goParseInt s <;> simp [castDuration, castInt64, h]
  · cases h : goParseInt s <;> simp [castDuration, castInt64, h]

/-- C9: the `uint` converter delegates to the 64-bit unsigned parse and then
narrows by Go conversion (reduction modulo `2 ^ uintBits`), failing exactly
when the 64-bit parse fails — no separate range check for the narrower
width.  On a 32-bit-`uint` platform, "4294967296" (2^32) parses as a
`uint64` and narrows silently to 0. -/
theorem C9_uint_narrowing_truncates :
    (∀ bits s, castUint bits s = (castUint64 s).map (fun i => i % 2 ^ bits))
    ∧ (∀ bits s e, castUint bits s = .error e ↔ castUint64 s = .error e)
    ∧ castUint64 "4294967296" = .ok 4294967296
    ∧ castUint 32 "4294967296" = .ok 0
    ∧ Uint 32 (fun n => if n = "V" then some "4294967296" else none) "V" 7 = .ok 0 := by
  refine ⟨fun bits s => ?_, fun bits s e => ?_, rfl, rfl, rfl⟩
  · cases h : castUint64 s <;> simp [castUint, h, Except.map]
  · cases h : castUint64 s <;> simp [castUint, h]

/-- C10: `Parse` executes exactly the queue snapshot taken when it was
called: it never removes bindings (the entry queue is a prefix of the exit
queue, and for package-registered queues the queue is exactly preserved),
what it executes depends only on the snapshot and the store — not on the
growing live queue — and a closure that registers a new binding mid-`Parse`
leaves that binding queued but unexecuted (its destination untouched) until
a later `Parse` runs it. -/
theorem C10_parse_executes_snapshot_only :
    (∀ (env : Env) (g : GState), g.vars <+: (Parse env g).1.vars)
    ∧ (∀ (env : Env) (rs : List RegData) (st : Store),
        (Parse env (registerAll rs ⟨[], st⟩)).1.vars = rs.map mkBindingOf)
    ∧ (∀ (env : Env) (q qv qv' : List Binding) (st : Store),
        (rangeRun env q ⟨qv, st⟩).1.store = (rangeRun env q ⟨qv', st⟩).1.store
          ∧ (rangeRun env q ⟨qv, st⟩).2 = (rangeRun env q ⟨qv', st⟩).2)
    ∧ Parse envNone ⟨[selfRegBinding], st0⟩
        = (⟨[selfRegBinding, mkBindingOf regBAR], updateStore st0 0 (GoVal.int 5)⟩, none)
    ∧ ((Parse envNone ⟨[selfRegBinding], st0⟩).1.store 1 = GoVal.int 0)
    ∧ ((Parse envNone (Parse envNone ⟨[selfRegBinding], st0⟩).1).1.store 1 = GoVal.int 2) :=
  ⟨fun env g => rangeRun_vars_prefix env g.vars g,
   fun env rs st => by rw [Parse_registerAll],
   fun env q qv qv' st => rangeRun_store_indep env q st qv qv',
   rfl, rfl, rfl⟩

end Envy
